import Mathlib

/-!
Shallow embedding of the real-time fan-out subsystem of the chat backend
(`notify_server/src/sse.rs`) and of the chat-model validation layer
(`chat_server/src/models/chat.rs`), together with theorems settling the
frozen claims about the natural-language specification.

Machine integers of the source (`u64`, `i64`, `usize`) are modelled as
`Nat`/`Int`; no arithmetic in the modelled fragment can overflow in a way
the claims depend on.
-/

/-! ## Events and wire frames (`notify_server/src/sse.rs`) -/

/-- `const CHANNEL_CAPACITY: usize = 256;` (sse.rs line 14). -/
def CHANNEL_CAPACITY : Nat := 256

/-- The `AppEvent` enum of the notify server: a closed tagged union.  The four
chat-shaped payloads carry `C` and the message payload carries `M`; the claims
only depend on the tags, so the payload types are parameters. -/
inductive AppEvent (C M : Type) where
  | NewChat (c : C)
  | AddToChat (c : C)
  | UpdateChatName (c : C)
  | RemoveFromChat (c : C)
  | NewMessage (m : M)
deriving DecidableEq

/-- The `match v.as_ref() { ... }` of `sse_handler` (sse.rs lines 53-59):
the wire label derived from an event's tag. -/
def eventName {C M : Type} : AppEvent C M → String
  | .NewChat _ => "NewChat"
  | .AddToChat _ => "AddToChat"
  | .UpdateChatName _ => "UpdateChatName"
  | .RemoveFromChat _ => "RemoveFromChat"
  | .NewMessage _ => "NewMessage"

/-- One outbound SSE frame: either an event frame
(`Event::default().data(v).event(name)`, sse.rs line 61) or a keep-alive
heartbeat (`KeepAlive::new().text(...)`, sse.rs line 67). -/
inductive Frame where
  | event (label : String) (data : String)
  | heartbeat (text : String)
deriving DecidableEq

/-- The event-kind label carried by a frame; heartbeat frames carry none. -/
def Frame.label : Frame → Option String
  | .event l _ => some l
  | .heartbeat _ => none

/-- The stream pipeline of `sse_handler` (sse.rs lines 52-62):
`BroadcastStream::new(rx).filter_map(|v| v.ok()).map(|v| ...)`.
Input items are what the broadcast stream yields: `Except.error n` models
`Err(BroadcastStreamRecvError::Lagged(n))` and is dropped by `filter_map`;
`Except.ok e` is an event, serialized by `ser`.  `serde_json::to_string`
is fallible, and the source calls `.expect(...)` on it: a `none` result is a
panic, which aborts the whole stream — modelled by returning the frames
produced so far and the flag `true` (aborted).  The second component is
`false` iff the stream ran to completion without panicking. -/
def adaptStream {C M : Type} (ser : AppEvent C M → Option String) :
    List (Except Nat (AppEvent C M)) → List Frame × Bool
  | [] => ([], false)
  | Except.error _ :: rest => adaptStream ser rest
  | Except.ok e :: rest =>
    match ser e with
    | none => ([], true)
    | some s =>
      let r := adaptStream ser rest
      (Frame.event (eventName e) s :: r.1, r.2)

/-! ## The broadcast channel (`tokio::sync::broadcast`)

`broadcast::channel(CHANNEL_CAPACITY)` (sse.rs line 46).  The channel is
modelled by the full publish history plus the fixed capacity; a receiver is a
cursor (position) into the history.  `recv` follows tokio's semantics: a
receiver more than `capacity` behind the head is lagged — its cursor jumps to
the oldest retained entry (`length - capacity`) and it is told how many
entries it missed; otherwise it takes the entry at its cursor, or finds the
channel empty (pending). -/

structure Broadcast (α : Type) where
  capacity : Nat
  history : List α
deriving DecidableEq

/-- `broadcast::channel(CHANNEL_CAPACITY)`: a fresh, empty channel. -/
def Broadcast.newChannel {α : Type} : Broadcast α :=
  { capacity := CHANNEL_CAPACITY, history := [] }

/-- `tx.send(ev)`: appends to the history.  Total: publishing never waits on
any receiver. -/
def Broadcast.publish {α : Type} (b : Broadcast α) (a : α) : Broadcast α :=
  { b with history := b.history ++ [a] }

/-- Everything a receiver whose cursor is at `pos` obtains by reading the
channel until it would block, as the items the `BroadcastStream` yields:
`Except.error n` is a `Lagged(n)` signal, `Except.ok a` a received event. -/
def Broadcast.drainItems {α : Type} (b : Broadcast α) (pos : Nat) :
    List (Except Nat α) :=
  if b.capacity + pos < b.history.length then
    Except.error (b.history.length - b.capacity - pos) ::
      b.drainItems (b.history.length - b.capacity)
  else if h : pos < b.history.length then
    Except.ok (b.history.get ⟨pos, h⟩) :: b.drainItems (pos + 1)
  else
    []
termination_by b.history.length - pos
decreasing_by
  · omega
  · omega

/-- The events actually delivered to a receiver at cursor `pos` (the lag
signals filtered out, as `filter_map(|v| v.ok())` does). -/
def Broadcast.drain {α : Type} (b : Broadcast α) (pos : Nat) : List α :=
  (b.drainItems pos).filterMap Except.toOption

/-! ## The user registry (`state.users`, a `DashMap<u64, Sender<Arc<AppEvent>>>`)

The registry maps user ids to channels.  Channels are stored in `chans` and
addressed by index, so that channel identity (which concrete channel a
subscription reads from) is observable. -/

structure Subscription where
  chan : Nat
  pos : Nat
deriving DecidableEq

structure Registry (α : Type) where
  map : List (Nat × Nat)
  chans : List (Broadcast α)
deriving DecidableEq

def Registry.empty {α : Type} : Registry α := { map := [], chans := [] }

/-- `users.get(&user_id)` (sse.rs line 43). -/
def Registry.get {α : Type} (r : Registry α) (uid : Nat) : Option Nat :=
  (r.map.find? (fun p => p.1 == uid)).map (fun p => p.2)

/-- The subscribe section of `sse_handler` (sse.rs lines 43-49), taken as one
atomic operation (its sequential meaning): on a hit, `tx.subscribe()` attaches
a receiver starting at the channel's current head; on a miss,
`broadcast::channel(CHANNEL_CAPACITY)` creates a fresh channel which is
inserted under `user_id`, and the kept receiver starts at position 0. -/
def Registry.subscribe {α : Type} (r : Registry α) (uid : Nat) :
    Registry α × Subscription :=
  match r.get uid with
  | some cid =>
    (r, { chan := cid, pos := (r.chans.getD cid Broadcast.newChannel).history.length })
  | none =>
    let cid := r.chans.length
    ({ map := (uid, cid) :: r.map, chans := r.chans ++ [Broadcast.newChannel] },
     { chan := cid, pos := 0 })

/-- Modelled from the spec: `publish(user_id, event)` — the publisher side of
the notify server is not among the provided sources; per the spec it "enqueues
`event` on `user_id`'s channel if a channel exists; if no channel exists …
this is a silent no-op". -/
def Registry.publish {α : Type} (r : Registry α) (uid : Nat) (a : α) : Registry α :=
  match r.get uid with
  | none => r
  | some cid =>
    { r with chans := r.chans.set cid ((r.chans.getD cid Broadcast.newChannel).publish a) }

inductive RegOp (α : Type) where
  | sub (uid : Nat)
  | pub (uid : Nat) (a : α)

def Registry.step {α : Type} (r : Registry α) : RegOp α → Registry α
  | .sub uid => (r.subscribe uid).1
  | .pub uid a => r.publish uid a

def Registry.run {α : Type} (r : Registry α) : List (RegOp α) → Registry α
  | [] => r
  | op :: ops => (r.step op).run ops

/-! ## The first-subscribe race (sse.rs lines 43-49, interleaved)

The subscribe section is NOT one atomic operation in the source: `users.get`
(one atomic read) and `state.users.insert` (one atomic write) are separate
calls on the concurrent map, and the channel construction sits between them.
Two handler invocations for the same user id are modelled as two threads,
each executing the section as two atomic steps:

  step A (`start`): read the map; on a hit the thread finishes with the
    existing channel (`tx.subscribe()`); on a miss it constructs a fresh
    channel (thread-local, so it belongs in the same atomic step) and moves
    to the insert step;
  step B (`insertPending ch`): `insert(user_id, tx)` — unconditionally
    overwrites the map entry — and the thread finishes reading from `ch`.

`created` records every channel ever constructed (identified by creation
order); `reg` is the map entry for the one contended user id. -/

inductive ThreadState where
  | start
  | insertPending (ch : Nat)
  | done (rx : Nat)
deriving DecidableEq

structure RaceState where
  reg : Option Nat
  created : List Nat
  t1 : ThreadState
  t2 : ThreadState
deriving DecidableEq

def threadStep (reg : Option Nat) (created : List Nat) (t : ThreadState) :
    Option Nat × List Nat × ThreadState :=
  match t with
  | .start =>
    match reg with
    | some ch => (reg, created, .done ch)
    | none => (reg, created ++ [created.length], .insertPending created.length)
  | .insertPending ch => (some ch, created, .done ch)
  | .done rx => (reg, created, .done rx)

def raceStep (s : RaceState) (who : Bool) : RaceState :=
  if who then
    let r := threadStep s.reg s.created s.t1
    { reg := r.1, created := r.2.1, t1 := r.2.2, t2 := s.t2 }
  else
    let r := threadStep s.reg s.created s.t2
    { reg := r.1, created := r.2.1, t1 := s.t1, t2 := r.2.2 }

def raceRun (s : RaceState) : List Bool → RaceState
  | [] => s
  | w :: ws => raceRun (raceStep s w) ws

def raceInit : RaceState :=
  { reg := none, created := [], t1 := .start, t2 := .start }

/-! ## Keep-alive configuration (sse.rs lines 64-68) -/

structure KeepAlive where
  intervalSecs : Nat
  text : String
deriving DecidableEq

/-- `KeepAlive::new().interval(Duration::from_secs(1)).text("keep-alive-text")`. -/
def sseKeepAlive : KeepAlive := { intervalSecs := 1, text := "keep-alive-text" }

/-- Modelled from the spec: the keep-alive timer itself lives in the SSE
library (axum), not in this repository's sources; per the spec, "heartbeat
frames appear at the configured interval even when zero events are published
during that interval" and "carry a fixed sentinel payload and no event-kind
label".  Time is discrete seconds; `eventFrames t` are the event frames the
adapter emits during second `t`, and a heartbeat is appended at every
multiple of the configured interval. -/
def framesAt (ka : KeepAlive) (eventFrames : Nat → List Frame) (t : Nat) :
    List Frame :=
  eventFrames t ++
    (if 0 < t ∧ t % ka.intervalSecs = 0 then [Frame.heartbeat ka.text] else [])

/-! ## The chat model (`chat_server/src/models/chat.rs`) -/

inductive ChatType where
  | Single
  | Group
  | PrivateChannel
  | PublicChannel
deriving DecidableEq

structure ChatDTO where
  name : Option String
  members : List Int
  public : Bool
deriving DecidableEq

structure Chat where
  id : Int
  ws_id : Int
  name : Option String
  type : ChatType
  members : List Int
  created_at : Int
deriving DecidableEq

/-- The variants of `AppError` the modelled fragment can produce. -/
inductive AppError where
  | ChatDTOError (msg : String)
  | NotFound (msg : String)
deriving DecidableEq

/-- The persistent store visible to the modelled queries: the user table (as
the set of existing user ids), the chat table, the id the next `INSERT`
returns, and the clock for `created_at`. -/
structure DB where
  existingUsers : List Int
  chats : List Chat
  nextId : Int
  now : Int
deriving DecidableEq

/-- Modelled from the spec and call shape: `fetch_chat_user_by_ids` is not
among the provided sources (only its caller in `valid_chat_dto` is).  It
fetches the users whose ids are in the given list
(`SELECT … FROM users WHERE id = ANY($1)`): one row per existing user, so
duplicate ids in the input contribute a single row. -/
def fetch_chat_user_by_ids (existing : List Int) (ids : List Int) : List Int :=
  (ids.dedup).filter (fun i => i ∈ existing)

/-- `valid_chat_dto` (chat.rs lines 36-55); `len` and `users` are inlined
(`len` is `input.members.length`, `users` the fetched rows). -/
def valid_chat_dto (existing : List Int) (input : ChatDTO) :
    Except AppError Unit :=
  if input.members.length < 2 then
    Except.error (AppError.ChatDTOError "Chat must have at least 2 members")
  else if 8 < input.members.length ∧ input.name.isNone then
    Except.error (AppError.ChatDTOError
      "Group chat with more than 8 members must have a name")
  else if (fetch_chat_user_by_ids existing input.members).length
      ≠ input.members.length then
    Except.error (AppError.ChatDTOError "Some members do not exist")
  else
    Except.ok ()

/-- `get_chat_type` (chat.rs lines 139-151). -/
def get_chat_type (input : ChatDTO) : ChatType :=
  match input.name, input.members.length with
  | none, 2 => ChatType.Single
  | none, _ => ChatType.Group
  | some _, _ =>
    if input.public then ChatType.PublicChannel else ChatType.PrivateChannel

/-- `create_chat` (chat.rs lines 15-34): validate, then `INSERT … RETURNING`.
The second component is the store after the call; on a validation error the
store is unchanged. -/
def create_chat (db : DB) (input : ChatDTO) (ws_id : Nat) :
    Except AppError Chat × DB :=
  match valid_chat_dto db.existingUsers input with
  | Except.error e => (Except.error e, db)
  | Except.ok _ =>
    let chat : Chat :=
      { id := db.nextId, ws_id := Int.ofNat ws_id, name := input.name,
        type := get_chat_type input, members := input.members,
        created_at := db.now }
    (Except.ok chat,
     { db with chats := db.chats ++ [chat], nextId := db.nextId + 1 })

/-- `update_chat` (chat.rs lines 57-75): validate, then
`UPDATE … WHERE id = $4 RETURNING` with `fetch_optional` (`none` when no row
has that id).  On a validation error the store is unchanged. -/
def update_chat (db : DB) (id : Nat) (input : ChatDTO) :
    Except AppError (Option Chat) × DB :=
  match valid_chat_dto db.existingUsers input with
  | Except.error e => (Except.error e, db)
  | Except.ok _ =>
    let modify : Chat → Chat := fun c =>
      { c with name := input.name, type := get_chat_type input,
               members := input.members }
    let updated := (db.chats.find? (fun c => c.id == Int.ofNat id)).map modify
    (Except.ok updated,
     { db with chats := db.chats.map (fun c =>
        if c.id == Int.ofNat id then modify c else c) })

/-- A serializer that fails on `NewChat` and succeeds elsewhere: a concrete
instance of a serialization failure, used to exercise the adapter's
panic path. -/
def serEx : AppEvent Unit Unit → Option String
  | .NewChat _ => none
  | _ => some "p"

/-! ## Helper lemmas -/

theorem Broadcast.drain_eq_drop {α : Type} (b : Broadcast α) (pos : Nat) :
    b.drain pos = b.history.drop (max pos (b.history.length - b.capacity)) := by
  rw [Broadcast.drain, Broadcast.drainItems]
  split
  · rename_i hlag
    rw [List.filterMap_cons]
    have ih := Broadcast.drain_eq_drop b (b.history.length - b.capacity)
    rw [Broadcast.drain] at ih
    simp only [Except.toOption]
    rw [ih]
    have hm1 : max (b.history.length - b.capacity) (b.history.length - b.capacity)
        = b.history.length - b.capacity := Nat.max_self _
    have hm2 : max pos (b.history.length - b.capacity)
        = b.history.length - b.capacity := by omega
    rw [hm1, hm2]
  · rename_i hnl
    split
    · rename_i hlt
      rw [List.filterMap_cons]
      have ih := Broadcast.drain_eq_drop b (pos + 1)
      rw [Broadcast.drain] at ih
      simp only [Except.toOption]
      rw [ih]
      have hmax : max pos (b.history.length - b.capacity) = pos := by omega
      have hmax1 : max (pos + 1) (b.history.length - b.capacity) = pos + 1 := by
        omega
      rw [hmax, hmax1, List.drop_eq_getElem_cons hlt]
      rfl
    · rw [List.filterMap_nil, Eq.comm, List.drop_eq_nil_iff]
      omega
termination_by b.history.length - pos
decreasing_by
  · omega
  · omega

/-- When the serializer succeeds on every event, the adapter never aborts and
emits exactly one frame per event (the lag signals contribute none). -/
theorem adaptStream_of_total {C M : Type} (ser : AppEvent C M → Option String)
    (hser : ∀ e, (ser e).isSome = true)
    (items : List (Except Nat (AppEvent C M))) :
    (adaptStream ser items).1.length = (items.filterMap Except.toOption).length
    ∧ (adaptStream ser items).2 = false := by
  induction items with
  | nil => exact ⟨rfl, rfl⟩
  | cons x rest ih =>
    cases x with
    | error n =>
      simpa only [adaptStream, List.filterMap_cons, Except.toOption] using ih
    | ok e =>
      have h := hser e
      cases hs : ser e with
      | none => rw [hs] at h; cases h
      | some s =>
        simp only [adaptStream, hs, List.filterMap_cons, Except.toOption,
          List.length_cons]
        exact ⟨by rw [ih.1], ih.2⟩

/-- Every frame the adapter emits is an event frame whose label comes from
`eventName`. -/
theorem adaptStream_frames {C M : Type} (ser : AppEvent C M → Option String)
    (items : List (Except Nat (AppEvent C M))) :
    ∀ f ∈ (adaptStream ser items).1,
      ∃ (e : AppEvent C M) (s : String), f = Frame.event (eventName e) s := by
  induction items with
  | nil => intro f hf; cases hf
  | cons x rest ih =>
    cases x with
    | error n => simpa only [adaptStream] using ih
    | ok e =>
      cases hs : ser e with
      | none => intro f hf; simp only [adaptStream, hs] at hf; cases hf
      | some s =>
        intro f hf
        simp only [adaptStream, hs, List.mem_cons] at hf
        rcases hf with rfl | hf
        · exact ⟨e, s, rfl⟩
        · exact ih f hf

/-- The five possible wire labels. -/
theorem eventName_mem {C M : Type} (e : AppEvent C M) :
    eventName e ∈
      ["NewChat", "AddToChat", "UpdateChatName", "RemoveFromChat", "NewMessage"] := by
  cases e <;> simp [eventName]

/-! ## Claims -/

/-- **C1** (code bug): the claim — and the spec — require that two concurrent
first-time subscribes for one user identity create exactly one channel, both
subscriptions reading from it.  The source's subscribe section is a
non-atomic get-then-insert, and under the interleaving
`t1.get, t2.get, t1.insert, t2.insert` (schedule `[true, false, true, false]`)
two channels are created: thread 1 ends up reading channel 0, thread 2
channel 1, and the registry retains only channel 1 — thread 1's channel has
been overwritten, so later publishes through the registry never reach it. -/
theorem C1_first_subscribe_race :
    (raceRun raceInit [true, false, true, false]).created = [0, 1]
    ∧ (raceRun raceInit [true, false, true, false]).t1 = ThreadState.done 0
    ∧ (raceRun raceInit [true, false, true, false]).t2 = ThreadState.done 1
    ∧ (raceRun raceInit [true, false, true, false]).reg = some 1 := by
  decide

/-- **C2** counterexample: the claim says a serialization failure is fatal
only to that one frame's production and the adapter does not crash the whole
stream.  In the source the failure is an `.expect` panic: with `serEx`
failing on the first event, the frame of the second event — whose own
serialization succeeds, and which alone would produce a frame — is never
produced, and the adapter aborts. -/
theorem C2_counterexample :
    adaptStream serEx
        [Except.ok (AppEvent.NewChat ()), Except.ok (AppEvent.NewMessage ())]
      = ([], true)
    ∧ serEx (AppEvent.NewMessage ()) = some "p"
    ∧ adaptStream serEx [Except.ok (AppEvent.NewMessage ())]
      = ([Frame.event "NewMessage" "p"], false) := by
  exact ⟨rfl, rfl, rfl⟩

/-- **C2** (amended): if serializing an event fails, the adapter aborts the
whole stream at that point — it emits exactly the frames of the events
preceding the failure and nothing further; the failure still never
propagates beyond that one subscriber: every subscriber's output is a
function of its own received items alone (so the registry, publishers and
the other subscribers are unaffected). -/
theorem C2_serialization_failure_aborts_adapter {C M : Type}
    (ser : AppEvent C M → Option String)
    (pre post : List (Except Nat (AppEvent C M))) (e : AppEvent C M)
    (hpre : (adaptStream ser pre).2 = false) (he : ser e = none) :
    adaptStream ser (pre ++ Except.ok e :: post) = ((adaptStream ser pre).1, true)
    ∧ ∀ (subs : List (List (Except Nat (AppEvent C M)))) (j : Nat),
        (subs.map (adaptStream ser)).getD j ([], false)
          = adaptStream ser (subs.getD j []) := by
  constructor
  · induction pre with
    | nil =>
      simp only [List.nil_append]
      show adaptStream ser (Except.ok e :: post) = _
      simp only [adaptStream, he]
    | cons x rest ih =>
      cases x with
      | error n =>
        simp only [List.cons_append, adaptStream] at hpre ⊢
        exact ih hpre
      | ok e2 =>
        cases hs : ser e2 with
        | none => simp only [adaptStream, hs] at hpre; cases hpre
        | some s =>
          simp only [List.cons_append, adaptStream, hs, List.append_eq] at hpre ⊢
          rw [ih hpre]
  · intro subs j
    rw [List.getD_eq_getElem?_getD, List.getD_eq_getElem?_getD,
      List.getElem?_map]
    cases h : subs[j]? with
    | none => rfl
    | some l => rfl

/-- **C2** witness: the amended abort behavior at a concrete input — a
stream whose single event fails to serialize aborts with no frames. -/
theorem C2_abort_witness :
    adaptStream serEx [Except.ok (AppEvent.NewChat ())] = ([], true) := by
  have h := (C2_serialization_failure_aborts_adapter serEx [] []
    (AppEvent.NewChat ()) rfl rfl).1
  simpa using h

/-- **C3** (confirmed): each event tag maps exactly to its own name as the
frame's kind label, and every event frame the adapter ever emits carries one
of the five labels — no other label is produced. -/
theorem C3_label_mapping_exact {C M : Type}
    (ser : AppEvent C M → Option String)
    (items : List (Except Nat (AppEvent C M))) :
    (∀ c : C, eventName (AppEvent.NewChat (M := M) c) = "NewChat")
    ∧ (∀ c : C, eventName (AppEvent.AddToChat (M := M) c) = "AddToChat")
    ∧ (∀ c : C, eventName (AppEvent.UpdateChatName (M := M) c) = "UpdateChatName")
    ∧ (∀ c : C, eventName (AppEvent.RemoveFromChat (M := M) c) = "RemoveFromChat")
    ∧ (∀ m : M, eventName (AppEvent.NewMessage (C := C) m) = "NewMessage")
    ∧ (∀ f ∈ (adaptStream ser items).1, ∃ lab data,
        f = Frame.event lab data ∧ Frame.label f = some lab ∧
        lab ∈ ["NewChat", "AddToChat", "UpdateChatName", "RemoveFromChat",
               "NewMessage"]) := by
  refine ⟨fun _ => rfl, fun _ => rfl, fun _ => rfl, fun _ => rfl, fun _ => rfl, ?_⟩
  intro f hf
  obtain ⟨e, s, rfl⟩ := adaptStream_frames ser items f hf
  exact ⟨eventName e, s, rfl, rfl, eventName_mem e⟩

/-- **C3** witness: the adapter run on one `NewChat` event emits exactly the
frame labeled `"NewChat"`, and the label is among the five. -/
theorem C3_label_witness :
    ∃ lab data, (Frame.event "NewChat" "x" : Frame) = Frame.event lab data
      ∧ Frame.label (Frame.event "NewChat" "x") = some lab
      ∧ lab ∈ ["NewChat", "AddToChat", "UpdateChatName", "RemoveFromChat",
               "NewMessage"] := by
  have h := (C3_label_mapping_exact (fun _ => some "x")
    [Except.ok (AppEvent.NewChat (C := Unit) (M := Unit) ())]).2.2.2.2.2
  exact h (Frame.event "NewChat" "x") (by simp [adaptStream, eventName])

/-- **C4** (confirmed): when the channel signals a lag (the receiver is more
than `capacity` events behind), the adapter produces no frame for the gap —
with a serializer that succeeds on every event it emits exactly one frame per
delivered event and never aborts — and the subscriber resumes from the oldest
still-retained event: what it reads is exactly the last `capacity` entries of
the publish history, a contiguous suffix of it, hence never corrupted or
duplicated. -/
theorem C4_lagged_subscriber {C M : Type} (ser : AppEvent C M → Option String)
    (b : Broadcast (AppEvent C M)) (pos : Nat)
    (hser : ∀ e, (ser e).isSome = true)
    (hlag : b.capacity + pos < b.history.length) :
    b.drain pos = b.history.drop (b.history.length - b.capacity)
    ∧ b.drain pos <:+ b.history
    ∧ (adaptStream ser (b.drainItems pos)).1.length = (b.drain pos).length
    ∧ (adaptStream ser (b.drainItems pos)).2 = false := by
  have hd : b.drain pos = b.history.drop (b.history.length - b.capacity) := by
    rw [Broadcast.drain_eq_drop]
    have : max pos (b.history.length - b.capacity)
        = b.history.length - b.capacity := by omega
    rw [this]
  refine ⟨hd, ?_, ?_, (adaptStream_of_total ser hser (b.drainItems pos)).2⟩
  · rw [hd]; exact List.drop_suffix _ _
  · exact (adaptStream_of_total ser hser (b.drainItems pos)).1

/-- **C4** witness: capacity 2, five published events, subscriber at
position 0: it resumes at the two retained events. -/
theorem C4_lagged_witness :
    (Broadcast.mk 2 [AppEvent.NewMessage (C := Unit) (M := Nat) 0,
        AppEvent.NewMessage 1, AppEvent.NewMessage 2, AppEvent.NewMessage 3,
        AppEvent.NewMessage 4]).drain 0
      = [AppEvent.NewMessage 3, AppEvent.NewMessage 4] := by
  have h := (C4_lagged_subscriber (fun _ => some "x")
    (Broadcast.mk 2 [AppEvent.NewMessage (C := Unit) (M := Nat) 0,
      AppEvent.NewMessage 1, AppEvent.NewMessage 2, AppEvent.NewMessage 3,
      AppEvent.NewMessage 4]) 0 (fun e => rfl) (by decide)).1
  exact h.trans (by decide)

set_option maxRecDepth 8000 in
/-- **C5** counterexample: the claim promises every currently-attached
subscriber its own copy of *every* event published after it attached.  With
the source's capacity-256 channel, a subscriber attached at position 0 that
reads only after 258 events have been published never receives the first
event (here the history is `0, 1, …, 257` and event `0`, published after the
attach, is not delivered). -/
theorem C5_counterexample :
    (Broadcast.mk CHANNEL_CAPACITY (List.range 258)).history.getD 0 99 = 0
    ∧ 0 ∉ (Broadcast.mk CHANNEL_CAPACITY (List.range 258)).drain 0 := by
  refine ⟨rfl, ?_⟩
  rw [Broadcast.drain_eq_drop]
  decide

/-- **C5** (amended): a subscriber that stays within the channel capacity
(at most `capacity` events behind) receives every event published after it
attached, in publish order (it reads exactly the history from its attach
position on); in general — lagging or not — what it reads is a contiguous
suffix of the publish history, so any two events it does observe appear in
publish order, and nothing is duplicated or corrupted. -/
theorem C5_publish_order {α : Type} (b : Broadcast α) (pos : Nat) :
    (b.history.length ≤ b.capacity + pos → b.drain pos = b.history.drop pos)
    ∧ b.drain pos <:+ b.history := by
  constructor
  · intro hle
    rw [Broadcast.drain_eq_drop]
    have : max pos (b.history.length - b.capacity) = pos := by omega
    rw [this]
  · rw [Broadcast.drain_eq_drop]
    exact List.drop_suffix _ _

/-- **C5** witness: a subscriber attached before two events and not lagging
observes both, in publish order. -/
theorem C5_order_witness :
    (Broadcast.mk CHANNEL_CAPACITY [5, 7] : Broadcast Nat).drain 0 = [5, 7] := by
  have h := (C5_publish_order (Broadcast.mk CHANNEL_CAPACITY [5, 7]) 0).1
    (by decide)
  exact h.trans (by decide)

/-- **C6** (confirmed): the configured heartbeat interval is the fixed
1 second and the sentinel payload the fixed `"keep-alive-text"`; at every
second a heartbeat frame is present in the adapter's output whatever the
event frames are — in particular when zero events are published — and a
heartbeat frame carries no event-kind label. -/
theorem C6_heartbeat (eventFrames : Nat → List Frame) (t : Nat) :
    sseKeepAlive.intervalSecs = 1
    ∧ sseKeepAlive.text = "keep-alive-text"
    ∧ Frame.heartbeat sseKeepAlive.text ∈ framesAt sseKeepAlive eventFrames (t + 1)
    ∧ Frame.heartbeat sseKeepAlive.text ∈ framesAt sseKeepAlive (fun _ => []) (t + 1)
    ∧ Frame.label (Frame.heartbeat sseKeepAlive.text) = none := by
  refine ⟨rfl, rfl, ?_, ?_, rfl⟩ <;>
    simp [framesAt, sseKeepAlive, Nat.mod_one]

/-- Capacity invariant: every channel held by a registry reachable from one
whose channels all have capacity `CHANNEL_CAPACITY` still has capacity
`CHANNEL_CAPACITY` (subscribes create only `Broadcast.newChannel`, publishes
only append to a history). -/
theorem Registry.run_capacity {α : Type} (r : Registry α)
    (hr : ∀ b ∈ r.chans, b.capacity = CHANNEL_CAPACITY) (ops : List (RegOp α)) :
    ∀ b ∈ (r.run ops).chans, b.capacity = CHANNEL_CAPACITY := by
  induction ops generalizing r with
  | nil => exact hr
  | cons op rest ih =>
    show ∀ b ∈ ((r.step op).run rest).chans, b.capacity = CHANNEL_CAPACITY
    apply ih
    intro b hb
    cases op with
    | sub uid =>
      cases hg : r.get uid with
      | some cid =>
        simp only [Registry.step, Registry.subscribe, hg] at hb
        exact hr b hb
      | none =>
        simp only [Registry.step, Registry.subscribe, hg] at hb
        rcases List.mem_append.mp hb with h | h
        · exact hr b h
        · rw [List.mem_singleton.mp h]; rfl
    | pub uid a =>
      cases hg : r.get uid with
      | none =>
        simp only [Registry.step, Registry.publish, hg] at hb
        exact hr b hb
      | some cid =>
        simp only [Registry.step, Registry.publish, hg] at hb
        rcases List.mem_or_eq_of_mem_set hb with h | h
        · exact hr b h
        · rw [h]
          show (r.chans.getD cid Broadcast.newChannel).capacity = CHANNEL_CAPACITY
          rcases Nat.lt_or_ge cid r.chans.length with hlt | hge
          · rw [List.getD_eq_getElem?_getD, List.getElem?_eq_getElem hlt]
            exact hr _ (List.getElem_mem hlt)
          · rw [List.getD_eq_getElem?_getD, List.getElem?_eq_none hge]
            rfl

/-- **C7** (confirmed): every channel a registry run from empty ever holds
was created with the fixed capacity `CHANNEL_CAPACITY = 256`, and publishing
is a total operation on the channel state that just appends to the history —
it does not depend on, nor wait for, any subscriber cursor. -/
theorem C7_fixed_capacity {α : Type} (ops : List (RegOp α)) :
    CHANNEL_CAPACITY = 256
    ∧ (∀ b ∈ (Registry.run (Registry.empty (α := α)) ops).chans,
        b.capacity = CHANNEL_CAPACITY)
    ∧ (∀ (b : Broadcast α) (a : α),
        (b.publish a).history = b.history ++ [a]
        ∧ (b.publish a).capacity = b.capacity) := by
  refine ⟨rfl, Registry.run_capacity _ (fun b hb => by cases hb) ops, ?_⟩
  exact fun b a => ⟨rfl, rfl⟩

/-- **C7** witness: after a first subscribe for user 1 and one publish, the
registry holds exactly the channel `⟨256, [5]⟩`, of capacity
`CHANNEL_CAPACITY`. -/
theorem C7_fixed_capacity_witness :
    (Broadcast.mk 256 [5] : Broadcast Nat)
      ∈ (Registry.run Registry.empty [RegOp.sub 1, RegOp.pub 1 5]).chans
    ∧ (Broadcast.mk 256 [5] : Broadcast Nat).capacity = CHANNEL_CAPACITY := by
  exact ⟨by decide, (C7_fixed_capacity [RegOp.sub 1, RegOp.pub 1 5]).2.1 _ (by decide)⟩

/-- **C8** (confirmed, for the operation's sequential meaning — the claim
under concurrent calls is C1): `subscribe(user_id)` is total (never fails);
when a channel for `user_id` exists it attaches to exactly that channel and
creates nothing; when none exists it creates exactly one fresh channel,
registers it under `user_id`, and the returned subscription reads from it. -/
theorem C8_subscribe_semantics {α : Type} (r : Registry α) (uid : Nat) :
    (∀ cid, r.get uid = some cid →
        (r.subscribe uid).1 = r ∧ (r.subscribe uid).2.chan = cid)
    ∧ (r.get uid = none →
        (r.subscribe uid).1.chans = r.chans ++ [Broadcast.newChannel]
        ∧ (r.subscribe uid).1.get uid = some (r.subscribe uid).2.chan
        ∧ (r.subscribe uid).2.chan = r.chans.length) := by
  constructor
  · intro cid h
    simp [Registry.subscribe, h]
  · intro h
    refine ⟨?_, ?_, ?_⟩
    · simp [Registry.subscribe, h]
    · simp only [Registry.subscribe, h]
      simp [Registry.get]
    · simp [Registry.subscribe, h]

/-- **C8** witness: a first subscribe on the empty registry creates the one
fresh channel and binds user 7 to it. -/
theorem C8_subscribe_witness :
    ((Registry.empty (α := Nat)).subscribe 7).1.chans = [Broadcast.newChannel]
    ∧ ((Registry.empty (α := Nat)).subscribe 7).1.get 7
        = some ((Registry.empty (α := Nat)).subscribe 7).2.chan := by
  have h := (C8_subscribe_semantics (Registry.empty (α := Nat)) 7).2 rfl
  exact ⟨by simpa using h.1, h.2.1⟩

/-- The membership-count check of `valid_chat_dto` (`users.len() != len`)
passes exactly when the member list has no duplicates and every member
exists: the fetch returns one row per *distinct* existing id. -/
theorem fetch_len_eq (existing : List Int) (ms : List Int) :
    (fetch_chat_user_by_ids existing ms).length = ms.length ↔
      ms.Nodup ∧ ∀ m ∈ ms, m ∈ existing := by
  show (ms.dedup.filter (fun i => decide (i ∈ existing))).length = ms.length ↔ _
  constructor
  · intro h
    have h1 : (ms.dedup.filter (fun i => decide (i ∈ existing))).length
        ≤ ms.dedup.length := (List.filter_sublist _).length_le
    have h2 : ms.dedup.length ≤ ms.length := (List.dedup_sublist ms).length_le
    have e2 : ms.dedup.length = ms.length := by omega
    have hd : ms.dedup = ms := (List.dedup_sublist ms).eq_of_length e2
    have hnd : ms.Nodup := by rw [← hd]; exact List.nodup_dedup ms
    have e1 : (ms.dedup.filter (fun i => decide (i ∈ existing))).length
        = ms.dedup.length := by omega
    have hf := (List.filter_sublist ms.dedup).eq_of_length e1
    refine ⟨hnd, fun m hm => ?_⟩
    have hmd : m ∈ ms.dedup := List.mem_dedup.mpr hm
    exact of_decide_eq_true (List.filter_eq_self.mp hf m hmd)
  · rintro ⟨hnd, hex⟩
    rw [List.dedup_eq_self.mpr hnd, List.filter_eq_self.mpr
      (fun a ha => decide_eq_true (hex a ha))]

/-- Whenever `valid_chat_dto` rejects, the error is a `ChatDTOError`. -/
theorem valid_chat_dto_error (existing : List Int) (input : ChatDTO)
    (hne : valid_chat_dto existing input ≠ Except.ok ()) :
    ∃ msg, valid_chat_dto existing input
      = Except.error (AppError.ChatDTOError msg) := by
  unfold valid_chat_dto at hne ⊢
  split at hne
  · rename_i h1
    rw [if_pos h1]
    exact ⟨_, rfl⟩
  · split at hne
    · rename_i h1 h2
      rw [if_neg h1, if_pos h2]
      exact ⟨_, rfl⟩
    · split at hne
      · rename_i h1 h2 h3
        rw [if_neg h1, if_neg h2, if_pos h3]
        exact ⟨_, rfl⟩
      · exact absurd rfl hne

/-- **C9** (corrected): validation succeeds exactly when the input has at
least 2 members, at most 8 members or a name, *no duplicate member ids*, and
only existing member ids; every rejection is a `ChatDTOError`, and a
rejected `create_chat`/`update_chat` leaves the store untouched.  (The
duplicate-free condition is the correction: the source compares the number
of distinct existing members against the full member-list length.) -/
theorem C9_validation (existing : List Int) (input : ChatDTO) :
    (valid_chat_dto existing input = Except.ok () ↔
      2 ≤ input.members.length
      ∧ (input.members.length ≤ 8 ∨ input.name.isSome = true)
      ∧ input.members.Nodup
      ∧ ∀ m ∈ input.members, m ∈ existing)
    ∧ (∀ (db : DB) (ws : Nat), db.existingUsers = existing →
        valid_chat_dto existing input ≠ Except.ok () →
        (create_chat db input ws).2 = db
        ∧ ∃ msg, (create_chat db input ws).1
            = Except.error (AppError.ChatDTOError msg))
    ∧ (∀ (db : DB) (id : Nat), db.existingUsers = existing →
        valid_chat_dto existing input ≠ Except.ok () →
        (update_chat db id input).2 = db
        ∧ ∃ msg, (update_chat db id input).1
            = Except.error (AppError.ChatDTOError msg)) := by
  refine ⟨⟨?_, ?_⟩, ?_, ?_⟩
  · intro hok
    unfold valid_chat_dto at hok
    by_cases h1 : input.members.length < 2
    · rw [if_pos h1] at hok; exact absurd hok (by simp)
    rw [if_neg h1] at hok
    by_cases h2 : 8 < input.members.length ∧ input.name.isNone = true
    · rw [if_pos h2] at hok; exact absurd hok (by simp)
    rw [if_neg h2] at hok
    by_cases h3 : (fetch_chat_user_by_ids existing input.members).length
        ≠ input.members.length
    · rw [if_pos h3] at hok; exact absurd hok (by simp)
    push_neg at h3
    have hfe := (fetch_len_eq existing input.members).mp h3
    refine ⟨by omega, ?_, hfe.1, hfe.2⟩
    rw [not_and_or] at h2
    rcases h2 with h | h
    · exact Or.inl (by omega)
    · refine Or.inr ?_
      rcases hn : input.name with _ | s
      · rw [hn] at h; exact absurd rfl h
      · rfl
  · rintro ⟨hlen, hname, hnd, hex⟩
    have h1 : ¬ input.members.length < 2 := by omega
    have h2 : ¬ (8 < input.members.length ∧ input.name.isNone = true) := by
      rintro ⟨ha, hb⟩
      rcases hname with h | h
      · omega
      · rw [Option.isNone_iff_eq_none.mp hb] at h; cases h
    have h3 : (fetch_chat_user_by_ids existing input.members).length
        = input.members.length :=
      (fetch_len_eq existing input.members).mpr ⟨hnd, hex⟩
    unfold valid_chat_dto
    rw [if_neg h1, if_neg h2, if_neg (fun hne => hne h3)]
  · intro db ws heq hne
    obtain ⟨msg, hmsg⟩ := valid_chat_dto_error existing input hne
    unfold create_chat
    rw [heq, hmsg]
    exact ⟨rfl, msg, rfl⟩
  · intro db id heq hne
    obtain ⟨msg, hmsg⟩ := valid_chat_dto_error existing input hne
    unfold update_chat
    rw [heq, hmsg]
    exact ⟨rfl, msg, rfl⟩

/-- **C9** counterexample: `members = [1, 1]` with both users existing passes
all three conditions of the claim — 2 members, not more than 8, every listed
id exists — yet validation rejects it ("Some members do not exist"), because
the fetch returns the single distinct user `1` and `1 ≠ 2`. -/
theorem C9_counterexample :
    valid_chat_dto [1, 2] { name := none, members := [1, 1], public := false }
      = Except.error (AppError.ChatDTOError "Some members do not exist")
    ∧ 2 ≤ ([1, 1] : List Int).length
    ∧ ¬ (8 < ([1, 1] : List Int).length)
    ∧ (∀ m ∈ ([1, 1] : List Int), m ∈ ([1, 2] : List Int)) := by
  exact ⟨rfl, by decide, by decide, by decide⟩

/-- **C9** witness: a duplicate-free, existing, 2-member unnamed input
validates, and a rejected input leaves the store untouched. -/
theorem C9_validation_witness :
    valid_chat_dto [1, 2] { name := none, members := [1, 2], public := false }
      = Except.ok ()
    ∧ (create_chat (DB.mk [1, 2] [] 1 0)
        { name := none, members := [3, 3], public := false } 1).2
      = DB.mk [1, 2] [] 1 0 := by
  have hne : valid_chat_dto [1, 2]
      { name := none, members := [3, 3], public := false } ≠ Except.ok () := by
    intro h
    rw [show valid_chat_dto [1, 2]
        { name := none, members := [3, 3], public := false }
      = Except.error (AppError.ChatDTOError "Some members do not exist")
      from rfl] at h
    cases h
  constructor
  · exact (C9_validation [1, 2]
      { name := none, members := [1, 2], public := false }).1.mpr (by decide)
  · exact ((C9_validation [1, 2]
      { name := none, members := [3, 3], public := false }).2.1
      (DB.mk [1, 2] [] 1 0) 1 rfl hne).1

/-- Closed form of `get_chat_type`: the match on `(name, members.len())`
reduced to its three cases. -/
theorem get_chat_type_eq (input : ChatDTO) :
    get_chat_type input =
      match input.name with
      | some _ =>
        if input.public then ChatType.PublicChannel else ChatType.PrivateChannel
      | none =>
        if input.members.length = 2 then ChatType.Single else ChatType.Group := by
  rcases hn : input.name with _ | s <;>
    rcases hl : input.members.length with _ | _ | _ | k <;>
      simp [get_chat_type, hn, hl]

/-- **C10** (confirmed): the stored chat type is a pure function of name
presence, member count and the public flag — no name and exactly 2 members
gives `Single`, no name otherwise gives `Group`, a present name gives
`PublicChannel` iff `public` — and both `create_chat` and `update_chat`
store exactly `get_chat_type input`. -/
theorem C10_chat_type (input : ChatDTO) :
    (input.name = none → input.members.length = 2 →
        get_chat_type input = ChatType.Single)
    ∧ (input.name = none → input.members.length ≠ 2 →
        get_chat_type input = ChatType.Group)
    ∧ (∀ s, input.name = some s →
        get_chat_type input
          = if input.public then ChatType.PublicChannel
            else ChatType.PrivateChannel)
    ∧ (∀ input2 : ChatDTO, input.name.isSome = input2.name.isSome →
        input.members.length = input2.members.length →
        input.public = input2.public →
        get_chat_type input = get_chat_type input2)
    ∧ (∀ (db : DB) (ws : Nat) (c : Chat) (db2 : DB),
        create_chat db input ws = (Except.ok c, db2) →
        c.type = get_chat_type input)
    ∧ (∀ (db : DB) (id : Nat) (c : Chat) (db2 : DB),
        update_chat db id input = (Except.ok (some c), db2) →
        c.type = get_chat_type input) := by
  refine ⟨?_, ?_, ?_, ?_, ?_, ?_⟩
  · intro hn hl
    rw [get_chat_type_eq, hn]
    simp [hl]
  · intro hn hl
    rw [get_chat_type_eq, hn]
    simp [hl]
  · intro s hn
    rw [get_chat_type_eq, hn]
  · intro input2 hsome hlen hpub
    rw [get_chat_type_eq, get_chat_type_eq]
    rcases hn : input.name with _ | s <;> rcases hn2 : input2.name with _ | s2
    · rw [hlen, hpub]
    · rw [hn, hn2] at hsome; cases hsome
    · rw [hn, hn2] at hsome; cases hsome
    · rw [hpub]
  · intro db ws c db2 h
    unfold create_chat at h
    cases hv : valid_chat_dto db.existingUsers input with
    | error e => rw [hv] at h; cases h
    | ok u =>
      rw [hv] at h
      injection h with h1 h2
      injection h1 with h3
      rw [← h3]
  · intro db id c db2 h
    unfold update_chat at h
    cases hv : valid_chat_dto db.existingUsers input with
    | error e => rw [hv] at h; cases h
    | ok u =>
      rw [hv] at h
      injection h with h1 h2
      injection h1 with h3
      cases hf : db.chats.find? (fun c => c.id == Int.ofNat id) with
      | none => rw [hf] at h3; cases h3
      | some c0 =>
        rw [hf] at h3
        rw [Option.map_some'] at h3
        injection h3 with h4
        rw [← h4]

/-- **C10** witness: an unnamed 2-member input gets type `Single`, and
creating it stores that type. -/
theorem C10_chat_type_witness :
    get_chat_type { name := none, members := [1, 2], public := false }
      = ChatType.Single := by
  exact (C10_chat_type
    { name := none, members := [1, 2], public := false }).1 rfl rfl
